import Mathlib

/-!
Shallow embedding of the revision-classification and merge logic of the
`regrev` repository (notebook `merge_data.ipynb`, incremental-outputs part
and tabular-merge part), together with theorems settling the spec claims.

Python functions that contain `assert` statements are embedded as
`Option`-valued functions: `none` models an assertion failure (a raised
`AssertionError`), `some v` models a normal return of `v`.
-/

namespace Regrev

/-- Embeds `NA_LABEL = 0`: the label used for convenient and effective
revisions when no revision occurred. -/
def NA_LABEL : Nat := 0

/-- Embeds `is_revision(previous, current)`: asserts
`len(previous) == len(current)`, then returns 0 when `previous == current`
and 1 otherwise. -/
def is_revision (previous current : List String) : Option Nat :=
  if previous.length = current.length then
    some (if previous = current then 0 else 1)
  else none

/-- Embeds `is_convenient_revision(previous, current, final)`: asserts
`len(previous) == len(final)`; returns `NA_LABEL` when `is_revision`
returns 0 (its own assertion failure propagates); else 0 when
`previous == final`, 1 otherwise. -/
def is_convenient_revision (previous current final : List String) : Option Nat :=
  if previous.length = final.length then
    match is_revision previous current with
    | none => none
    | some r =>
      if r = 0 then some NA_LABEL
      else if previous = final then some 0 else some 1
  else none

/-- Embeds `sum(np.array(xs) == np.array(ys))`: the number of aligned
positions at which the two sequences carry the same label. -/
def n_correct (xs ys : List String) : Nat :=
  List.countP (fun q => decide (q.1 = q.2)) (xs.zip ys)

/-- Embeds `is_effective_revision(previous, current, final)`: asserts
`len(previous) == len(final) and len(final) == len(current)`; returns
`NA_LABEL` when `is_revision` returns 0; else compares the elementwise
match counts of `previous` and `current` against `final`. -/
def is_effective_revision (previous current final : List String) : Option Nat :=
  if previous.length = final.length ∧ final.length = current.length then
    match is_revision previous current with
    | none => none
    | some r =>
      if r = 0 then some NA_LABEL
      else
        let n_correct_before := n_correct previous final
        let n_correct_after := n_correct current final
        if n_correct_after ≤ n_correct_before then some 0 else some 1
  else none

/-- Python list indexing `xs[i]` for `i : Int`, with negative indices
counting from the end (`xs[-1]` is the last element); `none` models the
`IndexError` raised on an out-of-range index. -/
def pyIdx {α : Type} (xs : List α) (i : Int) : Option α :=
  if 0 ≤ i then xs[i.toNat]?
  else if (-i).toNat ≤ xs.length then xs[xs.length - (-i).toNat]? else none

/-- Embeds `get_prefixes(outputs, text_idx, i)` with the output trace of one
text already looked up (`trace = outputs[text_idx]`): returns the full
output at step `i-1`, the output at step `i` truncated to that length, and
the last output of the trace truncated to that length. Python's `[:n]`
slice is `List.take n`. -/
def get_prefixes (trace : List (List String)) (i : Int) :
    Option (List String × List String × List String) :=
  match pyIdx trace (i - 1), pyIdx trace i, pyIdx trace (-1) with
  | some prev, some cur, some fin =>
      some (prev, cur.take prev.length, fin.take prev.length)
  | _, _, _ => none

/-- Embeds `get_revised_signal(outputs, text_idx, i)` with the trace of one
text already looked up: position 0 is hard-coded to
`(0, NA_LABEL, NA_LABEL)`; otherwise the three classifiers run on the
prefixes returned by `get_prefixes`. -/
def get_revised_signal (trace : List (List String)) (i : Int) :
    Option (Nat × Nat × Nat) :=
  if i = 0 then some (0, NA_LABEL, NA_LABEL)
  else
    match get_prefixes trace i with
    | none => none
    | some (prev, cur, fin) =>
      match is_revision prev cur, is_convenient_revision prev cur fin,
            is_effective_revision prev cur fin with
      | some r, some cv, some ef => some (r, cv, ef)
      | _, _, _ => none

/-- Two equal-length lists differ somewhere iff they are unequal. -/
lemma ne_iff_exists_diff {p cu : List String} (h : p.length = cu.length) :
    p ≠ cu ↔ ∃ j, j < p.length ∧ p[j]? ≠ cu[j]? := by
  constructor
  · intro hne
    by_contra hall
    push_neg at hall
    apply hne
    apply List.ext_getElem?
    intro n
    by_cases hn : n < p.length
    · exact hall n hn
    · push_neg at hn
      rw [List.getElem?_eq_none hn, List.getElem?_eq_none (h ▸ hn)]
  · rintro ⟨j, _, hj⟩ rfl
    exact hj rfl

/-- C1: for equal-length label sequences, `is_revision` returns 1 exactly
when the sequences differ elementwise somewhere and 0 exactly when they
agree at every position; in particular it returns 0 on two identical
sequences. -/
theorem is_revision_correct (p cu : List String) (h : p.length = cu.length) :
    (is_revision p cu = some 1 ↔ ∃ j, j < p.length ∧ p[j]? ≠ cu[j]?) ∧
    (is_revision p cu = some 0 ↔ ∀ j, j < p.length → p[j]? = cu[j]?) ∧
    is_revision p p = some 0 := by
  refine ⟨?_, ?_, by simp [is_revision]⟩
  · rw [← ne_iff_exists_diff h]
    unfold is_revision
    rw [if_pos h]
    by_cases hpc : p = cu <;> simp [hpc]
  · unfold is_revision
    rw [if_pos h]
    by_cases hpc : p = cu
    · simp only [hpc, if_pos rfl]
      simp
    · simp only [if_neg hpc]
      constructor
      · intro hcontra
        exact absurd (Option.some.inj hcontra) one_ne_zero
      · intro hall
        exfalso
        apply hpc
        apply List.ext_getElem?
        intro n
        by_cases hn : n < p.length
        · exact hall n hn
        · push_neg at hn
          rw [List.getElem?_eq_none hn, List.getElem?_eq_none (h ▸ hn)]

/-- Witness for C1 on the spec's own example: `['NOUN','VERB']` vs
`['NOUN','ADJ']` is a revision, and a repeated sequence is not. -/
theorem is_revision_correct_witness :
    is_revision ["NOUN", "VERB"] ["NOUN", "ADJ"] = some 1 ∧
    is_revision ["NOUN", "VERB"] ["NOUN", "VERB"] = some 0 := by
  refine ⟨?_, ?_⟩
  · exact (is_revision_correct ["NOUN", "VERB"] ["NOUN", "ADJ"] (by decide)).1.mpr
      ⟨1, by decide, by decide⟩
  · exact (is_revision_correct ["NOUN", "VERB"] ["NOUN", "VERB"] (by decide)).2.1.mpr
      (by decide)

/-- C2: with `len(previous) == len(final)`, `is_convenient_revision`
returns `NA_LABEL` whenever `is_revision` returns 0, for any `final`;
when a revision occurred, it returns 0 if `previous = final` and 1
otherwise. -/
theorem is_convenient_revision_correct (p cu f : List String)
    (h : p.length = f.length) :
    (is_revision p cu = some 0 → is_convenient_revision p cu f = some NA_LABEL) ∧
    (is_revision p cu = some 1 → p = f → is_convenient_revision p cu f = some 0) ∧
    (is_revision p cu = some 1 → p ≠ f → is_convenient_revision p cu f = some 1) := by
  refine ⟨?_, ?_, ?_⟩
  · intro hr
    simp [is_convenient_revision, h, hr]
  · intro hr hpf
    unfold is_convenient_revision
    rw [if_pos h, hr]
    simp [hpf]
  · intro hr hpf
    unfold is_convenient_revision
    rw [if_pos h, hr]
    simp [hpf]

/-- Witness for C2 on the spec's examples: identical sequences give
`NA_LABEL`; a revision away from the final answer gives 0 when `previous`
already equalled `final` and 1 when it did not. -/
theorem is_convenient_revision_correct_witness :
    is_convenient_revision ["A", "B"] ["A", "B"] ["A", "C"] = some NA_LABEL ∧
    is_convenient_revision ["A", "B"] ["A", "C"] ["A", "B"] = some 0 ∧
    is_convenient_revision ["A", "B"] ["A", "C"] ["A", "C"] = some 1 := by
  refine ⟨?_, ?_, ?_⟩
  · exact (is_convenient_revision_correct ["A", "B"] ["A", "B"] ["A", "C"]
      (by decide)).1 (by decide)
  · exact (is_convenient_revision_correct ["A", "B"] ["A", "C"] ["A", "B"]
      (by decide)).2.1 (by decide) (by decide)
  · exact (is_convenient_revision_correct ["A", "B"] ["A", "C"] ["A", "C"]
      (by decide)).2.2 (by decide) (by decide)

/-- The number of positions `j` at which the two sequences carry the same
label, stated positionally (the spec's "count of positions at which
`current` matches `final`"). -/
def matchingPositions (xs ys : List String) : Nat :=
  List.countP (fun j => decide (xs[j]? = ys[j]?)) (List.range xs.length)

lemma matchingPositions_cons (a b : String) (xs ys : List String) :
    matchingPositions (a :: xs) (b :: ys) =
      matchingPositions xs ys + if a = b then 1 else 0 := by
  unfold matchingPositions
  rw [List.length_cons, List.range_succ_eq_map, List.countP_cons, List.countP_map]
  simp [Function.comp_def, Nat.add_comm]

lemma n_correct_eq_matchingPositions :
    ∀ xs ys : List String, xs.length = ys.length →
      n_correct xs ys = matchingPositions xs ys := by
  intro xs
  induction xs with
  | nil =>
    intro ys h
    cases ys with
    | nil => rfl
    | cons b t => simp at h
  | cons a t ih =>
    intro ys h
    cases ys with
    | nil => simp at h
    | cons b u =>
      rw [List.length_cons, List.length_cons] at h
      rw [matchingPositions_cons]
      unfold n_correct
      rw [List.zip_cons_cons, List.countP_cons]
      have ht := ih u (Nat.succ.inj h)
      unfold n_correct at ht
      rw [ht]
      by_cases hab : a = b <;> simp [hab]

lemma n_correct_self (xs : List String) : n_correct xs xs = xs.length := by
  induction xs with
  | nil => rfl
  | cons a t ih =>
    unfold n_correct at ih ⊢
    rw [List.zip_cons_cons, List.countP_cons, ih]
    simp

lemma n_correct_le_right (xs ys : List String) : n_correct xs ys ≤ ys.length := by
  unfold n_correct
  calc List.countP (fun q => decide (q.1 = q.2)) (xs.zip ys)
      ≤ (xs.zip ys).length := List.countP_le_length _
    _ ≤ ys.length := by rw [List.length_zip]; exact Nat.min_le_right _ _

/-- C3: with all three sequences of equal length, `is_effective_revision`
returns `NA_LABEL` when `previous = current` (no revision); otherwise it
returns 1 exactly when the count of positions at which `current` matches
`final` strictly exceeds the count at which `previous` matches `final`,
and 0 exactly otherwise. -/
theorem is_effective_revision_correct (p cu f : List String)
    (h1 : p.length = cu.length) (h2 : p.length = f.length) :
    (p = cu → is_effective_revision p cu f = some NA_LABEL) ∧
    (p ≠ cu →
      (is_effective_revision p cu f = some 1 ↔
        matchingPositions p f < matchingPositions cu f) ∧
      (is_effective_revision p cu f = some 0 ↔
        ¬ matchingPositions p f < matchingPositions cu f)) := by
  have hlen : p.length = f.length ∧ f.length = cu.length := ⟨h2, h2 ▸ h1⟩
  have hb := n_correct_eq_matchingPositions p f h2
  have ha := n_correct_eq_matchingPositions cu f (h1 ▸ h2 ▸ rfl)
  constructor
  · intro hpc
    simp [is_effective_revision, hlen, is_revision, h1, hpc, NA_LABEL]
  · intro hpc
    have hrev : is_revision p cu = some 1 := by simp [is_revision, h1, hpc]
    constructor
    · unfold is_effective_revision
      rw [if_pos hlen, hrev]
      simp only [ha, hb]
      by_cases hle : matchingPositions cu f ≤ matchingPositions p f
      · simp [hle, Nat.not_lt.mpr hle]
      · simp [hle, Nat.lt_of_not_le hle]
    · unfold is_effective_revision
      rw [if_pos hlen, hrev]
      simp only [ha, hb]
      by_cases hle : matchingPositions cu f ≤ matchingPositions p f
      · simp [hle, Nat.not_lt.mpr hle]
      · simp [hle, Nat.lt_of_not_le hle]

/-- Witness for C3 on the spec's example: `previous=['A','B']`,
`current=['C','B']`, `final=['C','D']` has one more matching position after
the revision, so the revision is effective. -/
theorem is_effective_revision_correct_witness :
    is_effective_revision ["A", "B"] ["C", "B"] ["C", "D"] = some 1 ∧
    is_effective_revision ["A", "B"] ["A", "B"] ["C", "D"] = some NA_LABEL := by
  refine ⟨?_, ?_⟩
  · exact ((is_effective_revision_correct ["A", "B"] ["C", "B"] ["C", "D"]
      (by decide) (by decide)).2 (by decide)).1.mpr (by decide)
  · exact (is_effective_revision_correct ["A", "B"] ["A", "B"] ["C", "D"]
      (by decide) (by decide)).1 (by decide)

/-- C4: at token position 0, `get_revised_signal` returns
`(0, NA_LABEL, NA_LABEL)` whatever the output trace contains. -/
theorem get_revised_signal_position_zero (trace : List (List String)) :
    get_revised_signal trace 0 = some (0, NA_LABEL, NA_LABEL) := rfl

/-- C6: all three classifiers fail (assertion error, modelled as `none`)
instead of returning a label when the sequence lengths are mismatched:
`is_revision` on `len(previous) ≠ len(current)`, `is_convenient_revision`
on `len(previous) ≠ len(final)` (and also via the inner `is_revision` call
on `len(previous) ≠ len(current)`), and `is_effective_revision` whenever
the three lengths are not all equal. -/
theorem length_mismatch_fails_loudly :
    (∀ p cu : List String, p.length ≠ cu.length → is_revision p cu = none) ∧
    (∀ p cu f : List String, p.length ≠ f.length →
      is_convenient_revision p cu f = none) ∧
    (∀ p cu f : List String, p.length ≠ cu.length →
      is_convenient_revision p cu f = none) ∧
    (∀ p cu f : List String, ¬ (p.length = f.length ∧ f.length = cu.length) →
      is_effective_revision p cu f = none) := by
  refine ⟨?_, ?_, ?_, ?_⟩
  · intro p cu h
    simp [is_revision, h]
  · intro p cu f h
    simp [is_convenient_revision, h]
  · intro p cu f h
    unfold is_convenient_revision
    rw [is_revision, if_neg h]
    split <;> rfl
  · intro p cu f h
    simp [is_effective_revision, h]

/-- Witness for C6: each classifier returns `none` on concrete mismatched
inputs. -/
theorem length_mismatch_fails_loudly_witness :
    is_revision ["A"] [] = none ∧
    is_convenient_revision ["A"] ["B"] [] = none ∧
    is_convenient_revision ["A"] [] ["B"] = none ∧
    is_effective_revision ["A"] ["B"] [] = none :=
  ⟨length_mismatch_fails_loudly.1 ["A"] [] (by decide),
   length_mismatch_fails_loudly.2.1 ["A"] ["B"] [] (by decide),
   length_mismatch_fails_loudly.2.2.1 ["A"] [] ["B"] (by decide),
   length_mismatch_fails_loudly.2.2.2 ["A"] ["B"] [] (by decide)⟩

/-- C9: an effective revision is always a convenient revision: if
`is_effective_revision` returns 1 then `is_convenient_revision` returns 1
on the same inputs. -/
theorem effective_implies_convenient (p cu f : List String)
    (h : is_effective_revision p cu f = some 1) :
    is_convenient_revision p cu f = some 1 := by
  unfold is_effective_revision at h
  by_cases hlen : p.length = f.length ∧ f.length = cu.length
  · rw [if_pos hlen] at h
    have hplc : p.length = cu.length := hlen.1.trans hlen.2
    by_cases hpc : p = cu
    · rw [is_revision, if_pos hplc, if_pos hpc] at h
      simp [NA_LABEL] at h
    · rw [is_revision, if_pos hplc, if_neg hpc] at h
      simp only [if_neg one_ne_zero] at h
      by_cases hcmp : n_correct cu f ≤ n_correct p f
      · rw [if_pos hcmp] at h
        exact absurd (Option.some.inj h) zero_ne_one
      · have hpf : p ≠ f := by
          intro hpf
          apply hcmp
          rw [hpf, n_correct_self]
          exact n_correct_le_right cu f
        rw [is_convenient_revision, if_pos hlen.1, is_revision, if_pos hplc,
          if_neg hpc]
        simp [hpf]
  · rw [if_neg hlen] at h
    exact absurd h (by simp)

/-- Witness for C9: a revision that fixes the single label is both
effective and convenient. -/
theorem effective_implies_convenient_witness :
    is_convenient_revision ["A"] ["B"] ["B"] = some 1 :=
  effective_implies_convenient ["A"] ["B"] ["B"] (by decide)

/-- C7: for every token position `i ≥ 1` inside the trace, `get_prefixes`
returns the full output recorded at step `i-1` as `previous`, the output
at step `i` truncated to the previous length as `current`, and the last
output of the trace truncated to the previous length as `final`, so that
exactly the previously-seen label span is compared. -/
theorem get_prefixes_spec (tr : List (List String)) (i : Nat)
    (prev cur fin : List String) (h1 : 1 ≤ i)
    (hp : tr[i - 1]? = some prev) (hc : tr[i]? = some cur)
    (hf : tr.getLast? = some fin) :
    get_prefixes tr (i : Int) =
      some (prev, cur.take prev.length, fin.take prev.length) := by
  obtain ⟨j, rfl⟩ : ∃ j, i = j + 1 := ⟨i - 1, (Nat.succ_pred_eq_of_pos h1).symm⟩
  have hp2 : tr[j]? = some prev := by simpa using hp
  have hlt : j + 1 < tr.length := by
    by_contra hle
    push_neg at hle
    rw [List.getElem?_eq_none hle] at hc
    exact absurd hc (by simp)
  have e1 : pyIdx tr ((↑(j + 1) : Int) - 1) = tr[j]? := by
    unfold pyIdx
    have hj : ((↑(j + 1) : Int) - 1) = (↑j : Int) := by push_cast; ring
    rw [hj, if_pos (Int.natCast_nonneg j)]
    simp
  have e2 : pyIdx tr (↑(j + 1) : Int) = tr[j + 1]? := by
    unfold pyIdx
    rw [if_pos (Int.natCast_nonneg (j + 1))]
    simp
  have e3 : pyIdx tr (-1) = tr.getLast? := by
    unfold pyIdx
    rw [if_neg (by decide)]
    have h11 : ((-(-1 : Int)).toNat) = 1 := by decide
    rw [h11, if_pos (by omega), List.getLast?_eq_getElem?]
  unfold get_prefixes
  rw [e1, e2, e3, hp2, hc, hf]

/-- Witness for C7: in the trace `[['A'], ['B','X'], ['C','Y','Z']]` at
position 2, `previous` is the full step-1 output and the step-2 and final
outputs are truncated to its length. -/
theorem get_prefixes_spec_witness :
    get_prefixes [["A"], ["B", "X"], ["C", "Y", "Z"]] ((2 : Nat) : Int) =
      some (["B", "X"], ["C", "Y"], ["C", "Y"]) :=
  get_prefixes_spec [["A"], ["B", "X"], ["C", "Y", "Z"]] 2
    ["B", "X"] ["C", "Y", "Z"] ["C", "Y", "Z"]
    (by decide) (by decide) (by decide) (by decide)

/-- C10: with the default `NA_LABEL = 0`, the "not applicable" sentinel is
indistinguishable from a genuine 0 label: `is_convenient_revision` returns
the same value 0 both when no revision occurred and when a revision
abandoned a prediction that equalled `final`, and `is_effective_revision`
returns the same value 0 both when no revision occurred and when a
revision failed to strictly increase agreement with `final`. -/
theorem na_label_indistinguishable_from_zero :
    NA_LABEL = 0 ∧
    is_convenient_revision ["A"] ["A"] ["B"] = some 0 ∧
    is_revision ["A"] ["B"] = some 1 ∧
    is_convenient_revision ["A"] ["B"] ["A"] = some 0 ∧
    is_effective_revision ["A"] ["A"] ["B"] = some 0 ∧
    is_effective_revision ["A"] ["B"] ["C"] = some 0 := by
  decide

/-- A per-corpus data table as the validation cell sees it: the
`Identifier` index and the `Token` column (`none` models a pandas `NaN`);
`wf` records that a dataframe column has one entry per index row. -/
structure Table where
  index : List String
  tokens : List (Option String)
  wf : index.length = tokens.length

/-- pandas elementwise `==` on two token cells: `NaN` compares unequal to
everything, including itself. -/
def pdEq (a b : Option String) : Bool :=
  match a, b with
  | some x, some y => x = y
  | _, _ => false

/-- pandas elementwise `!=` on two token cells: the negation of `pdEq`. -/
def pdNe (a b : Option String) : Bool := !(pdEq a b)

/-- Embeds `dataframe[dataframe['Token'] != ref_tokens].shape[0]`: the
number of rows whose token text differs from the reference table's. -/
def mismatchCount (t ref : Table) : Nat :=
  List.countP (fun q => pdNe q.1 q.2) (t.tokens.zip ref.tokens)

/-- Embeds the human-table assertions of the validation cell:
`all(dataframe.index == ref_index)`, `all(dataframe['Token'] == ref_tokens)`
and `dataframe.Token.isna().sum() == 0`. `true` means every assertion
passes; `false` means an `AssertionError` halts the run. -/
def validateHuman (ref t : Table) : Bool :=
  decide (t.index = ref.index) &&
  List.all (t.tokens.zip ref.tokens) (fun q => pdEq q.1 q.2) &&
  List.all t.tokens Option.isSome

/-- Embeds the model-table assertions of the validation cell: index
equality, no missing token text, and the corpus-specific token-text
assertion — mismatch count exactly 3 for `rastros_ptbr`, exactly 2 for
`potec_de`, full equality otherwise. -/
def validateModel (corpusName : String) (ref t : Table) : Bool :=
  decide (t.index = ref.index) &&
  List.all t.tokens Option.isSome &&
  (if corpusName = "rastros_ptbr" then decide (mismatchCount t ref = 3)
   else if corpusName = "potec_de" then decide (mismatchCount t ref = 2)
   else List.all (t.tokens.zip ref.tokens) (fun q => pdEq q.1 q.2))

/-- The whole pre-merge validation for one corpus: every human per-measure
table and every model revisions table must pass its assertions. -/
def validateCorpus (corpusName : String) (humanTables : List Table)
    (ref : Table) (modelTables : List Table) : Bool :=
  List.all humanTables (validateHuman ref) &&
  List.all modelTables (validateModel corpusName ref)

/-- A three-row reference table for the validation theorems. -/
def refTableEx : Table :=
  ⟨["i0", "i1", "i2"], [some "a", some "b", some "c"], rfl⟩

/-- A model table agreeing with `refTableEx` except in one token. -/
def modelTableEx1 : Table :=
  ⟨["i0", "i1", "i2"], [some "a", some "b", some "X"], rfl⟩

/-- A model table disagreeing with `refTableEx` in all three tokens. -/
def modelTableEx3 : Table :=
  ⟨["i0", "i1", "i2"], [some "x", some "y", some "z"], rfl⟩

/-- Counterexample to C5: a `rastros_ptbr` model table whose token text
differs from the reference in only 1 entry — strictly within the
documented "tolerance" of 3, with identical index and no missing token —
is nevertheless rejected, because the cell asserts the mismatch count is
exactly 3. -/
theorem validation_tolerance_counterexample :
    mismatchCount modelTableEx1 refTableEx = 1 ∧
    (1 : Nat) ≤ 3 ∧
    modelTableEx1.index = refTableEx.index ∧
    List.all modelTableEx1.tokens Option.isSome = true ∧
    validateModel "rastros_ptbr" refTableEx modelTableEx1 = false := by
  decide

/-- C5 (amended): the validation rejects any table whose index differs
from the reference (and thereby rejects the whole corpus when any table
does), and for token text it asserts an exact mismatch count — exactly 3
for `rastros_ptbr`, exactly 2 for `potec_de`, exactly 0 (full equality)
for every other corpus; tables meeting the exact count with matching index
and no missing token text pass. -/
theorem validation_exact_count (refT t : Table) :
    (t.index ≠ refT.index → validateHuman refT t = false) ∧
    (∀ corpusName : String, t.index ≠ refT.index →
      validateModel corpusName refT t = false) ∧
    (∀ corpusName : String, ∀ humanTables modelTables : List Table,
      t ∈ humanTables → t.index ≠ refT.index →
      validateCorpus corpusName humanTables refT modelTables = false) ∧
    (mismatchCount t refT ≠ 3 →
      validateModel "rastros_ptbr" refT t = false) ∧
    (mismatchCount t refT ≠ 2 →
      validateModel "potec_de" refT t = false) ∧
    (∀ corpusName : String, corpusName ≠ "rastros_ptbr" →
      corpusName ≠ "potec_de" → mismatchCount t refT ≠ 0 →
      validateModel corpusName refT t = false) ∧
    (t.index = refT.index → List.all t.tokens Option.isSome = true →
      mismatchCount t refT = 3 →
      validateModel "rastros_ptbr" refT t = true) ∧
    (t.index = refT.index → List.all t.tokens Option.isSome = true →
      mismatchCount t refT = 2 →
      validateModel "potec_de" refT t = true) ∧
    (∀ corpusName : String, corpusName ≠ "rastros_ptbr" →
      corpusName ≠ "potec_de" →
      t.index = refT.index → List.all t.tokens Option.isSome = true →
      mismatchCount t refT = 0 →
      validateModel corpusName refT t = true) := by
  refine ⟨?_, ?_, ?_, ?_, ?_, ?_, ?_, ?_, ?_⟩
  · intro hne
    simp [validateHuman, hne]
  · intro corpusName hne
    simp [validateModel, hne]
  · intro corpusName humanTables modelTables hmem hne
    unfold validateCorpus
    have hfail : List.all humanTables (validateHuman refT) = false := by
      rw [← Bool.not_eq_true, List.all_eq_true]
      intro hall
      have hth := hall t hmem
      rw [show validateHuman refT t = false by simp [validateHuman, hne]] at hth
      exact Bool.false_ne_true hth
    rw [hfail, Bool.false_and]
  · intro hne
    simp [validateModel, hne]
  · intro hne
    simp [validateModel, hne]
  · intro corpusName h1 h2 hne
    unfold validateModel
    rw [if_neg h1, if_neg h2]
    have hx : List.all (t.tokens.zip refT.tokens) (fun q => pdEq q.1 q.2) = false := by
      rw [← Bool.not_eq_true, List.all_eq_true]
      intro hall
      apply hne
      rw [mismatchCount, List.countP_eq_zero]
      intro a ha
      simp [pdNe, hall a ha]
    rw [hx]
    simp
  · intro h1 h2 h3
    simp [validateModel, h1, h2, h3]
  · intro h1 h2 h3
    simp [validateModel, h1, h2, h3]
  · intro corpusName hc1 hc2 h1 h2 h3
    unfold validateModel
    rw [if_neg hc1, if_neg hc2]
    have hx : List.all (t.tokens.zip refT.tokens) (fun q => pdEq q.1 q.2) = true := by
      rw [mismatchCount, List.countP_eq_zero] at h3
      rw [List.all_eq_true]
      intro a ha
      have hna := h3 a ha
      simpa [pdNe] using hna
    rw [hx, h1, h2]
    simp

/-- Witness for the amended C5: a table with exactly 3 mismatches passes
for `rastros_ptbr` but fails for `provo_en`; a table with 1 mismatch fails
for `rastros_ptbr`. -/
theorem validation_exact_count_witness :
    validateModel "rastros_ptbr" refTableEx modelTableEx3 = true ∧
    validateModel "provo_en" refTableEx modelTableEx3 = false ∧
    validateModel "rastros_ptbr" refTableEx modelTableEx1 = false :=
  ⟨(validation_exact_count refTableEx modelTableEx3).2.2.2.2.2.2.1
      (by decide) (by decide) (by decide),
   (validation_exact_count refTableEx modelTableEx3).2.2.2.2.2.1 "provo_en"
      (by decide) (by decide) (by decide),
   (validation_exact_count refTableEx modelTableEx1).2.2.2.1 (by decide)⟩

/-- A dataframe cell as it occurs in the merge stage: an integer value, a
token string, or a missing value. -/
inductive Cell
  | num : Nat → Cell
  | str : String → Cell
  | na : Cell
deriving DecidableEq

/-- A dataframe of the merge stage: the `Identifier` index plus the named
columns in order. -/
structure Frame where
  index : List String
  cols : List (String × List Cell)

def containsAux (needle : List Char) : List Char → Bool
  | [] => needle.isEmpty
  | ch :: t => List.isPrefixOf needle (ch :: t) || containsAux needle t

/-- Embeds Python's substring test `needle in hay` on strings. -/
def strContains (hay needle : String) : Bool :=
  containsAux needle.toList hay.toList

/-- Embeds the `model_cols` selection of the melt cell: the columns whose
name contains none of `Subj`, `effective`, `convenient`, `Token`. -/
def modelCols (f : Frame) : List String :=
  List.filter
    (fun nm => !(strContains nm "Subj") && !(strContains nm "effective") &&
      !(strContains nm "convenient") && !(strContains nm "Token"))
    (f.cols.map Prod.fst)

def splitCharsAux (sep : Char) : List Char → List Char → List String
  | [], acc => [String.mk acc.reverse]
  | ch :: rest, acc =>
      if ch = sep then
        String.mk acc.reverse :: splitCharsAux sep rest []
      else splitCharsAux sep rest (ch :: acc)

/-- Embeds Python's `s.split(sep)` for a single-character separator. -/
def pySplit (s : String) (sep : Char) : List String :=
  splitCharsAux sep s.toList []

/-- Embeds `c.split(':')[1]`: `none` models the `IndexError` raised when
the column name contains no colon. -/
def splitColon1 (s : String) : Option String := (pySplit s ':')[1]?

/-- One row of a melted output table: identifier, token text, model
revision value, subject id, human regression value, and the text id and
token position split out of the identifier. -/
structure OutRow where
  identifier : String
  token : Cell
  revision : Cell
  subjectid : String
  regression : Cell
  textid : String
  token_position : String
deriving DecidableEq

/-- Embeds the body of the melt cell for one model/task column `col`:
select the non-revision columns plus `col`; rename subject columns to the
part after the colon and `col` to `revision`; melt with id vars
`Identifier`, `Token`, `revision` into one row per (token, subject); split
the identifier `text_<id>_token_<pos>` into text id and token position.
`none` models any error raised along the way. -/
def processColumn (f : Frame) (col : String) : Option (List OutRow) :=
  let defaultCols := List.filter (fun nm => !(strContains nm "revision"))
    (f.cols.map Prod.fst)
  let auxCols := List.filter
    (fun q => defaultCols.contains q.1 || q.1 == col) f.cols
  match List.mapM (fun (q : String × List Cell) =>
      if q.1 = col then some ("revision", q.2)
      else if q.1 = "Token" then some ("Token", q.2)
      else Option.map (fun nm => (nm, q.2)) (splitColon1 q.1)) auxCols with
  | none => none
  | some renamed =>
    match List.lookup "Token" renamed, List.lookup "revision" renamed with
    | some tokenVals, some revisionVals =>
      let valueCols := List.filter
        (fun q => (q.1 != "Token") && (q.1 != "revision")) renamed
      match List.mapM (fun (subj : String × List Cell) =>
          List.mapM (fun q =>
            match pySplit q.1.1 '_' with
            | [_, tid, _, tpos] =>
                some (⟨q.1.1, q.1.2, q.2.1, subj.1, q.2.2, tid, tpos⟩ : OutRow)
            | _ => none)
            ((f.index.zip tokenVals).zip (revisionVals.zip subj.2))) valueCols with
      | none => none
      | some rowBlocks => some rowBlocks.flatten
    | _, _ => none

/-- The merged table of the spec's end-to-end example: two tokens, one
human subject column and one model revision column. -/
def exampleFrame : Frame :=
  ⟨["text_1_token_0", "text_1_token_1"],
   [("Token", [Cell.str "The", Cell.str "cat"]),
    ("Subj:001", [Cell.num 0, Cell.num 1]),
    ("revision:pos_modelA", [Cell.num 0, Cell.num 1])]⟩

/-- C8: on the spec's end-to-end example the melt cell selects exactly the
one model column `revision:pos_modelA` and produces exactly the two
expected rows. -/
theorem melt_example_rows :
    modelCols exampleFrame = ["revision:pos_modelA"] ∧
    processColumn exampleFrame "revision:pos_modelA" =
      some
        [⟨"text_1_token_0", Cell.str "The", Cell.num 0, "001", Cell.num 0,
          "1", "0"⟩,
         ⟨"text_1_token_1", Cell.str "cat", Cell.num 1, "001", Cell.num 1,
          "1", "1"⟩] := by
  decide

end Regrev
